import Mathlib

/-!
A verification development for `pycoin/key/Key.py`.

The `Key` class is embedded shallowly: its constructor and methods become
Lean functions over an explicit `KeyState`, Python exceptions become an
`Except KeyError` result, Python `None` becomes `Option`, and Python
truthiness tests are modelled explicitly (`0`, `None` and empty byte
strings are falsy).  The external collaborators (the elliptic-curve
generator object, the byte-level encoders and the DER codec) are outside
this repository; the generator is a record of operations passed around as
data, and the encoders are modelled from the spec as concrete executable
functions.
-/

namespace Pycoin

/-- Byte strings are modelled as lists of integers. -/
abbrev Bytes := List Int

/-- A point on the curve: a pair of coordinates. -/
abbrev Point := Int × Int

/-- A public pair as supplied to the constructor: either coordinate may be
Python `None` (the constructor rejects such pairs). -/
abbrev PubPairIn := Option Int × Option Int

/-- Modelled from the spec: the external curve-group collaborator.  It
supplies the group order, scalar multiplication by the generator
(`s * generator` in the source), the curve-membership test, the ECDSA
sign and verify primitives, and the public-key recovery procedure. -/
structure Generator where
  order : Int
  mul : Int → Point
  contains_point : Int → Int → Bool
  sign : Int → Int → Int × Int
  verify : Point → Int → Int × Int → Bool
  possible_public_pairs_for_signature : Int → Int × Int → List Point

/-- Modelled from the spec: `from_bytes_32`, the external big-endian
bytes-to-integer conversion. -/
def from_bytes_32 (bs : Bytes) : Int :=
  bs.foldl (fun a b => 256 * a + b) 0

/-- Modelled from the spec: `hash160`, the external short-hash function
(`short-hash(bytes) → fixed-length bytes`); modelled as a simple
fixed-length (one-entry) digest, since the real function lives outside
this repository. -/
def hash160 (bs : Bytes) : Bytes :=
  [bs.foldl (fun a b => 31 * a + b + 1) 7]

/-- Modelled from the spec: `public_pair_to_sec`, the external
compressed/uncompressed serialization of a point.  The compressed form
carries a parity tag and the x coordinate; the uncompressed form carries
both coordinates. -/
def public_pair_to_sec (p : Point) (compressed : Bool) : Bytes :=
  if compressed then [if p.2 % 2 == 0 then 2 else 3, p.1]
  else [4, p.1, p.2]

/-- Modelled from the spec: `public_pair_to_hash160_sec`, the short hash
of the serialized public key (as in the external encoding module, it is
the composition of the two functions above). -/
def public_pair_to_hash160_sec (p : Point) (compressed : Bool) : Bytes :=
  hash160 (public_pair_to_sec p compressed)

/-- Modelled from the spec: `sigencode_der`, DER encoding of an (r, s)
signature pair. -/
def sigencode_der (r s : Int) : Bytes :=
  [48, r, s]

/-- Modelled from the spec: `sigdecode_der`, DER decoding of a signature;
returns `none` on a malformed input (the real decoder raises). -/
def sigdecode_der : Bytes → Option (Int × Int)
  | [48, r, s] => some (r, s)
  | _ => none

/-- Python truthiness of an optional integer: `None` and `0` are falsy. -/
def truthyInt : Option Int → Bool
  | none => false
  | some n => n != 0

/-- Python truthiness of an optional byte string: `None` and `b""` are
falsy. -/
def truthyBytes : Option Bytes → Bool
  | none => false
  | some bs => !bs.isEmpty

/-- The error kinds raised by `Key.py` (each `raise` site gets its own
constructor; `attributeError` stands for the `AttributeError` Python
would raise on calling a method of `None`). -/
inductive KeyError where
  | arityError
  | missingGenerator
  | invalidSecretExponent
  | invalidPublicPair
  | attributeError
  | notPrivate
  | missingGeneratorVerify
  | malformedSignature
  deriving DecidableEq, Repr

/-- The instance state of a `Key` after `__init__` returns: the fields
assigned in the constructor (`wif_prefix` and friends are class-level
network constants not used by the claims and are omitted). -/
structure KeyState where
  _prefer_uncompressed : Bool
  _secret_exponent : Option Int
  _generator : Option Generator
  _public_pair : Option Point
  _hash160_uncompressed : Option Bytes
  _hash160_compressed : Option Bytes

/-- `[secret_exponent, public_pair, hash160].count(None)` from line 59 of
the source. -/
def countNone (secret_exponent : Option Int) (public_pair : Option PubPairIn)
    (hash160v : Option Bytes) : Nat :=
  (if secret_exponent.isNone then 1 else 0) +
  (if public_pair.isNone then 1 else 0) +
  (if hash160v.isNone then 1 else 0)

/-- The public-pair validation block of `Key.__init__` (source lines
84–87): a pair with a `None` coordinate is rejected, and when a generator
is known the pair must pass the curve-membership test; on success the
pair is stored. -/
def Key.validatePublicPair (generator : Option Generator) (st : KeyState)
    (public_pair : Option PubPairIn) : Except KeyError KeyState :=
  match public_pair with
  | none => Except.ok st
  | some (some x, some y) =>
    match generator with
    | some g =>
      if g.contains_point x y then Except.ok { st with _public_pair := some (x, y) }
      else Except.error .invalidPublicPair
    | none => Except.ok { st with _public_pair := some (x, y) }
  | some _ => Except.error .invalidPublicPair

/-- `Key.__init__` (source lines 36–87).  Python truthiness is preserved:
the default for `is_compressed` tests the truthiness of `hash160`, the
missing-generator check tests the truthiness of `secret_exponent` (so a
secret exponent of `0` skips it), and the range check on the secret
exponent short-circuits (`< 1` is tested before `generator.order()` is
touched). -/
def Key.init (secret_exponent : Option Int) (generator : Option Generator)
    (public_pair : Option PubPairIn) (hash160v : Option Bytes)
    (prefer_uncompressed : Option Bool) (is_compressed : Option Bool) :
    Except KeyError KeyState :=
  let ic := is_compressed.getD (if truthyBytes hash160v then false else true)
  if countNone secret_exponent public_pair hash160v ≠ 2 then
    Except.error .arityError
  else if truthyInt secret_exponent = true ∧ generator.isNone = true then
    Except.error .missingGenerator
  else
    let pu := prefer_uncompressed.getD (!ic)
    let st : KeyState :=
      { _prefer_uncompressed := pu
        _secret_exponent := secret_exponent
        _generator := generator
        _public_pair := none
        _hash160_uncompressed :=
          if truthyBytes hash160v then (if ic then none else hash160v) else none
        _hash160_compressed :=
          if truthyBytes hash160v then (if ic then hash160v else none) else none }
    match public_pair, secret_exponent with
    | none, some s =>
      if s < 1 then Except.error .invalidSecretExponent
      else
        match generator with
        | none => Except.error .attributeError
        | some g =>
          if g.order ≤ s then Except.error .invalidSecretExponent
          else Key.validatePublicPair generator st (some (some (g.mul s).1, some (g.mul s).2))
    | _, _ => Key.validatePublicPair generator st public_pair

namespace KeyState

/-- `Key.secret_exponent` (source line 100). -/
def secret_exponent (k : KeyState) : Option Int :=
  k._secret_exponent

/-- `Key.is_private` (source line 97). -/
def is_private (k : KeyState) : Bool :=
  k.secret_exponent.isSome

/-- `Key.public_pair` (source line 121). -/
def public_pair (k : KeyState) : Option Point :=
  k._public_pair

/-- `Key._use_uncompressed` (source lines 255–260): a truthy explicit
argument is returned as given, `None` falls back to the stored
preference, and a falsy non-`None` argument yields `False`. -/
def _use_uncompressed (k : KeyState) (use_uncompressed : Option Bool) : Bool :=
  match use_uncompressed with
  | some true => true
  | some false => false
  | none => k._prefer_uncompressed

/-- `Key.sec` (source lines 127–135), instrumented: alongside the result,
the second component records the invocations of the external serializer
`public_pair_to_sec` made during the call (the source makes one such call
whenever a public pair is present). -/
def secT (k : KeyState) (use_uncompressed : Option Bool) :
    Option Bytes × List (Point × Bool) :=
  match k._public_pair with
  | none => (none, [])
  | some p =>
    let c := !(k._use_uncompressed use_uncompressed)
    (some (public_pair_to_sec p c), [(p, c)])

/-- `Key.sec` (source lines 127–135): the result alone. -/
def sec (k : KeyState) (use_uncompressed : Option Bool) : Option Bytes :=
  (k.secT use_uncompressed).1

/-- `Key.hash160` (source lines 151–169), instrumented: the result, the
(possibly updated) instance state, and the list of invocations of the
external serializer `public_pair_to_sec` made during the call (the
memoizing branches call `self.sec(...)`, whose serializer call is inlined
here; the memoized and hash-only branches make none). -/
def hash160MT (k : KeyState) (use_uncompressed : Option Bool) :
    Option Bytes × KeyState × List (Point × Bool) :=
  let uu := k._use_uncompressed use_uncompressed
  match k._public_pair with
  | none => (if uu then k._hash160_uncompressed else k._hash160_compressed, k, [])
  | some p =>
    if uu then
      match k._hash160_uncompressed with
      | some v => (some v, k, [])
      | none =>
        let v := hash160 (public_pair_to_sec p (!uu))
        (some v, { k with _hash160_uncompressed := some v }, [(p, !uu)])
    else
      match k._hash160_compressed with
      | some v => (some v, k, [])
      | none =>
        let v := hash160 (public_pair_to_sec p (!uu))
        (some v, { k with _hash160_compressed := some v }, [(p, !uu)])

/-- `Key.hash160`: result and updated state, without the instrumentation. -/
def hash160M (k : KeyState) (use_uncompressed : Option Bool) :
    Option Bytes × KeyState :=
  ((k.hash160MT use_uncompressed).1, (k.hash160MT use_uncompressed).2.1)

/-- `Key.public_copy` (source lines 197–202): a key with no secret
exponent is returned unchanged; otherwise a new key is constructed from
the public pair, the stored compression preference, and a compression
flag recording whether the compressed hash slot was populated. -/
def public_copy (k : KeyState) : Except KeyError KeyState :=
  match k._secret_exponent with
  | none => Except.ok k
  | some _ =>
    Key.init none none (k._public_pair.map (fun p => (some p.1, some p.2))) none
      (some k._prefer_uncompressed) (some k._hash160_compressed.isSome)

/-- `Key.sign` (source lines 217–226). -/
def sign (k : KeyState) (h : Bytes) : Except KeyError Bytes :=
  match k._secret_exponent with
  | none => Except.error .notPrivate
  | some se =>
    match k._generator with
    | none => Except.error .attributeError
    | some g =>
      let rs := g.sign se (from_bytes_32 h)
      Except.ok (sigencode_der rs.1 rs.2)

/-- `Key.verify` (source lines 228–253): resolve a generator (explicit
argument, else the stored one), DER-decode the signature, and either
verify against the known public pair directly or, for a key holding no
public pair, scan the recovery candidates for the first one whose short
hash under either compression variant equals `self.hash160()`, failing
with `False` when none matches. -/
def verify (k : KeyState) (h : Bytes) (sig : Bytes)
    (generator : Option Generator) : Except KeyError Bool :=
  match (match generator with | some g => some g | none => k._generator) with
  | none => Except.error .missingGeneratorVerify
  | some g =>
    let val := from_bytes_32 h
    match sigdecode_der sig with
    | none => Except.error .malformedSignature
    | some rs =>
      match k.public_pair with
      | some pubkey => Except.ok (g.verify pubkey val rs)
      | none =>
        let possible_pubkeys := g.possible_public_pairs_for_signature val rs
        let h160 := (k.hash160MT none).1
        match possible_pubkeys.find? (fun candidate =>
            (h160 == some (public_pair_to_hash160_sec candidate true)) ||
            (h160 == some (public_pair_to_hash160_sec candidate false))) with
        | some pubkey => Except.ok (g.verify pubkey val rs)
        | none => Except.ok false

end KeyState

/-- A small concrete curve-group instance (a cyclic group of order 5 on
the x axis) used to instantiate the theorems at explicit inputs. -/
def toyGen : Generator where
  order := 5
  mul := fun s => (s % 5, 0)
  contains_point := fun x y => decide (0 ≤ x ∧ x < 5 ∧ y = 0)
  sign := fun s h => (s % 5, h)
  verify := fun p h rs => decide (p = (rs.1 % 5, 0) ∧ rs.2 = h)
  possible_public_pairs_for_signature := fun _ rs => [(rs.1 % 5, 0)]

/-- The concrete private key produced by
`Key.init (some 2) (some toyGen) none none none none`. -/
def kPriv : KeyState :=
  ⟨false, some 2, some toyGen, some (2, 0), none, none⟩

/-- A concrete hash-only key holding a compressed-slot hash with a
compressed preference (as produced by
`Key.init none none none (some [7]) (some false) (some true)`). -/
def kHashOnly : KeyState :=
  ⟨false, none, none, none, none, some [7]⟩

/-- Helper: the public-pair validation block only ever raises the
invalid-public-pair error. -/
theorem validatePublicPair_error (g : Option Generator) (st : KeyState)
    (pp : Option PubPairIn) (e : KeyError)
    (h : Key.validatePublicPair g st pp = Except.error e) :
    e = KeyError.invalidPublicPair := by
  rcases pp with _ | ⟨_ | x, _ | y⟩
  · simp [Key.validatePublicPair] at h
  · exact (Except.error.inj h).symm
  · exact (Except.error.inj h).symm
  · exact (Except.error.inj h).symm
  · rcases g with _ | gg
    · simp [Key.validatePublicPair] at h
    · simp only [Key.validatePublicPair] at h
      by_cases hc : gg.contains_point x y = true
      · rw [if_pos hc] at h; simp at h
      · rw [if_neg hc] at h; exact (Except.error.inj h).symm

/-- Helper: once the arity check has passed, `Key.__init__` never raises
the construction-arity error. -/
theorem key_init_ne_arity_of_countNone (se : Option Int) (g : Option Generator)
    (pp : Option PubPairIn) (hv : Option Bytes) (pu ic : Option Bool)
    (h : countNone se pp hv = 2) :
    Key.init se g pp hv pu ic ≠ Except.error KeyError.arityError := by
  intro hE
  unfold Key.init at hE
  rw [if_neg (by omega)] at hE
  by_cases hmg : truthyInt se = true ∧ g.isNone = true
  · rw [if_pos hmg] at hE; simp at hE
  · rw [if_neg hmg] at hE
    rcases pp with _ | p
    · rcases se with _ | s
      · exact absurd (validatePublicPair_error _ _ _ _ hE) (by decide)
      · dsimp only at hE
        by_cases hlt : s < 1
        · rw [if_pos hlt] at hE; simp at hE
        · rw [if_neg hlt] at hE
          rcases g with _ | gg
          · simp at hE
          · dsimp only at hE
            by_cases hord : gg.order ≤ s
            · rw [if_pos hord] at hE; simp at hE
            · rw [if_neg hord] at hE
              exact absurd (validatePublicPair_error _ _ _ _ hE) (by decide)
    · exact absurd (validatePublicPair_error _ _ _ _ hE) (by decide)

/-- C5: `Key.__init__` raises the construction-arity error exactly when
the number of supplied values among `{secret_exponent, public_pair,
hash160}` is not one; supplying exactly one of them never raises this
error. -/
theorem key_init_arity_error_iff (se : Option Int) (g : Option Generator)
    (pp : Option PubPairIn) (hv : Option Bytes) (pu ic : Option Bool) :
    Key.init se g pp hv pu ic = Except.error KeyError.arityError ↔
      (if se.isSome then 1 else 0) + (if pp.isSome then 1 else 0) +
        (if hv.isSome then 1 else 0) ≠ 1 := by
  constructor
  · intro hE hc
    have h2 : countNone se pp hv = 2 := by
      rcases se with _ | s <;> rcases pp with _ | p <;> rcases hv with _ | b <;>
        simp [countNone] at hc ⊢
    exact key_init_ne_arity_of_countNone se g pp hv pu ic h2 hE
  · intro hc
    have h2 : countNone se pp hv ≠ 2 := by
      rcases se with _ | s <;> rcases pp with _ | p <;> rcases hv with _ | b <;>
        simp [countNone] at hc ⊢
    unfold Key.init
    rw [if_pos h2]

/-- Helper: evaluating `Key.__init__` on a valid private-key call: the
arity and missing-generator checks pass, the public pair is derived by
scalar multiplication, and the membership check accepts it. -/
theorem key_init_private_eval (g : Generator) (s : Int) (pu ic : Option Bool)
    (h1 : 1 ≤ s) (h2 : s < g.order)
    (h3 : g.contains_point (g.mul s).1 (g.mul s).2 = true) :
    Key.init (some s) (some g) none none pu ic =
      Except.ok ⟨pu.getD (!(ic.getD true)), some s, some g, some (g.mul s),
        none, none⟩ := by
  unfold Key.init
  rw [if_neg (by simp [countNone]), if_neg (by simp)]
  dsimp only
  rw [if_neg (by omega), if_neg (by omega)]
  simp [Key.validatePublicPair, h3, truthyBytes]

/-- C3: for every scalar `s` with `1 ≤ s < generator.order` (and with the
curve collaborator honouring its contract that `s * generator` lies on
the curve), `Key(secret_exponent=s, generator=g)` succeeds, and the
constructed key's `public_pair()` equals `s * g` and passes the
generator's curve-membership test. -/
theorem key_init_secret_in_range (g : Generator) (s : Int) (pu ic : Option Bool)
    (h1 : 1 ≤ s) (h2 : s < g.order)
    (h3 : g.contains_point (g.mul s).1 (g.mul s).2 = true) :
    ∃ k, Key.init (some s) (some g) none none pu ic = Except.ok k ∧
      k.public_pair = some (g.mul s) ∧
      g.contains_point (g.mul s).1 (g.mul s).2 = true :=
  ⟨_, key_init_private_eval g s pu ic h1 h2 h3, rfl, h3⟩

/-- Witness for the C3 theorem at the concrete input `s = 2` over the toy
generator. -/
theorem key_init_secret_in_range_witness :
    (1 ≤ (2 : Int)) ∧ ((2 : Int) < toyGen.order) ∧
      (toyGen.contains_point (toyGen.mul 2).1 (toyGen.mul 2).2 = true) ∧
      ∃ k, Key.init (some 2) (some toyGen) none none none none = Except.ok k ∧
        k.public_pair = some (toyGen.mul 2) ∧
        toyGen.contains_point (toyGen.mul 2).1 (toyGen.mul 2).2 = true :=
  ⟨by decide, by decide, by decide,
    key_init_secret_in_range toyGen 2 none none (by decide) (by decide) (by decide)⟩

/-- C4 counterexample: a secret exponent of `0` — outside `[1, order)` —
supplied together with a public pair raises the construction-arity error,
not the invalid-secret-exponent error, so "outside the range" does not
imply the invalid-secret-exponent error. -/
theorem key_init_invalid_secret_preempted :
    Key.init (some 0) (some toyGen) (some (some 1, some 0)) none none none =
      Except.error KeyError.arityError ∧
    KeyError.arityError ≠ KeyError.invalidSecretExponent ∧ (0 : Int) < 1 :=
  ⟨rfl, by decide, by decide⟩

/-- C4 (amended): construction raises the invalid-secret-exponent error
iff the secret exponent is the only key material supplied, the
missing-generator check does not fire first (the exponent is `0` or a
generator is present), and the exponent is outside `[1, generator.order)`
(below `1`, or at least the order of a supplied generator); in
particular a supplied secret exponent inside that range never raises this
error. -/
theorem key_init_invalid_secret_iff (se : Option Int) (g : Option Generator)
    (pp : Option PubPairIn) (hv : Option Bytes) (pu ic : Option Bool) :
    Key.init se g pp hv pu ic = Except.error KeyError.invalidSecretExponent ↔
      ∃ s, se = some s ∧ pp = none ∧ hv = none ∧
        (s = 0 ∨ g.isSome = true) ∧
        (s < 1 ∨ ∃ gg, g = some gg ∧ gg.order ≤ s) := by
  constructor
  · intro hE
    rcases se with _ | s
    · exfalso
      unfold Key.init at hE
      by_cases ha : countNone none pp hv ≠ 2
      · rw [if_pos ha] at hE; simp at hE
      · rw [if_neg ha, if_neg (by simp [truthyInt])] at hE
        rcases pp with _ | p <;> dsimp only at hE <;>
          exact absurd (validatePublicPair_error _ _ _ _ hE) (by decide)
    · unfold Key.init at hE
      by_cases ha : countNone (some s) pp hv ≠ 2
      · rw [if_pos ha] at hE; simp at hE
      · rw [if_neg ha] at hE
        have hpp : pp = none ∧ hv = none := by
          rcases pp with _ | p <;> rcases hv with _ | b <;>
            simp [countNone] at ha ⊢
        obtain ⟨rfl, rfl⟩ := hpp
        by_cases hmg : truthyInt (some s) = true ∧ g.isNone = true
        · rw [if_pos hmg] at hE; simp at hE
        · rw [if_neg hmg] at hE
          dsimp only at hE
          have hg : s = 0 ∨ g.isSome = true := by
            rcases g with _ | gg
            · left
              by_contra hs0
              exact hmg ⟨by simp [truthyInt, hs0], rfl⟩
            · right; rfl
          by_cases hlt : s < 1
          · exact ⟨s, rfl, rfl, rfl, hg, Or.inl hlt⟩
          · rw [if_neg hlt] at hE
            rcases g with _ | gg
            · simp at hE
            · dsimp only at hE
              by_cases hord : gg.order ≤ s
              · exact ⟨s, rfl, rfl, rfl, hg, Or.inr ⟨gg, rfl, hord⟩⟩
              · rw [if_neg hord] at hE
                exact absurd (validatePublicPair_error _ _ _ _ hE) (by decide)
  · rintro ⟨s, rfl, rfl, rfl, hg, hrange⟩
    have hmg : ¬(truthyInt (some s) = true ∧ (g : Option Generator).isNone = true) := by
      rintro ⟨ht, hn⟩
      rcases hg with rfl | hg
      · simp [truthyInt] at ht
      · rcases g with _ | gg
        · simp at hg
        · simp at hn
    unfold Key.init
    rw [if_neg (by simp [countNone]), if_neg hmg]
    dsimp only
    by_cases hlt : s < 1
    · rw [if_pos hlt]
    · rw [if_neg hlt]
      rcases hrange with hlt' | ⟨gg, rfl, hord⟩
      · omega
      · dsimp only
        rw [if_pos hord]

/-- C6 counterexample: a secret exponent of `0` supplied without a
generator does not raise the missing-generator error; because `0` is
falsy in Python, the missing-generator check is skipped and the
range check raises the invalid-secret-exponent error instead. -/
theorem key_init_secret_zero_no_generator :
    Key.init (some 0) none none none none none =
      Except.error KeyError.invalidSecretExponent := rfl

/-- C6 (amended): whenever a nonzero secret exponent is supplied as the
only key material and no generator is supplied, construction fails with
the missing-generator error. -/
theorem key_init_missing_generator (s : Int) (pu ic : Option Bool)
    (hs : s ≠ 0) :
    Key.init (some s) none none none pu ic =
      Except.error KeyError.missingGenerator := by
  unfold Key.init
  rw [if_neg (by simp [countNone]), if_pos ⟨by simp [truthyInt, hs], rfl⟩]

/-- Witness for the amended C6 theorem at the concrete input `s = 1`. -/
theorem key_init_missing_generator_witness :
    (1 : Int) ≠ 0 ∧
      Key.init (some 1) none none none none none =
        Except.error KeyError.missingGenerator :=
  ⟨by decide, key_init_missing_generator 1 none none (by decide)⟩

/-- C2: for every Key constructed from a secret exponent (with a
generator, under the curve collaborator's contracts that `s * g` lies on
the curve and that the ECDSA primitives verify their own signatures) and
every message hash, `verify(h, sign(h))` returns `true`, using the key's
own public point directly: the recovery procedure is irrelevant (the
result is `true` for an arbitrary replacement of the generator's
recovery function). -/
theorem key_sign_verify_roundtrip (g : Generator) (s : Int) (pu ic : Option Bool)
    (hmsg : Bytes) (rf : Int → Int × Int → List Point)
    (h1 : 1 ≤ s) (h2 : s < g.order)
    (h3 : g.contains_point (g.mul s).1 (g.mul s).2 = true)
    (h4 : g.verify (g.mul s) (from_bytes_32 hmsg)
      (g.sign s (from_bytes_32 hmsg)) = true) :
    ∃ k sig, Key.init (some s) (some g) none none pu ic = Except.ok k ∧
      k.sign hmsg = Except.ok sig ∧
      k.verify hmsg sig none = Except.ok true ∧
      k.verify hmsg sig
        (some { g with possible_public_pairs_for_signature := rf }) =
        Except.ok true := by
  refine ⟨_, _, key_init_private_eval g s pu ic h1 h2 h3, rfl, ?_, ?_⟩
  · simp [KeyState.verify, KeyState.public_pair, KeyState.sign, sigencode_der,
      sigdecode_der, Prod.mk.eta, h4]
  · simp [KeyState.verify, KeyState.public_pair, KeyState.sign, sigencode_der,
      sigdecode_der, Prod.mk.eta, h4]

/-- Witness for the C2 theorem over the toy generator at `s = 2`,
message hash `[3]`. -/
theorem key_sign_verify_roundtrip_witness :
    (1 ≤ (2 : Int)) ∧ ((2 : Int) < toyGen.order) ∧
    (toyGen.contains_point (toyGen.mul 2).1 (toyGen.mul 2).2 = true) ∧
    (toyGen.verify (toyGen.mul 2) (from_bytes_32 [3])
      (toyGen.sign 2 (from_bytes_32 [3])) = true) ∧
    ∃ k sig, Key.init (some 2) (some toyGen) none none none none = Except.ok k ∧
      k.sign [3] = Except.ok sig ∧
      k.verify [3] sig none = Except.ok true ∧
      k.verify [3] sig
        (some { toyGen with possible_public_pairs_for_signature := fun _ _ => [] }) =
        Except.ok true :=
  ⟨by decide, by decide, by decide, by decide,
    key_sign_verify_roundtrip toyGen 2 none none [3] (fun _ _ => [])
      (by decide) (by decide) (by decide) (by decide)⟩

/-- C7: a hash-only Key stores the supplied hash in the slot selected by
`is_compressed`; the `hash160` accessor returns the stored slot for the
requested compression variant and `none` for the other variant, without
changing the instance state and without invoking the serializer (it never
derives a public point or the other variant's hash). -/
theorem key_hash160_hash_only_slots (hv : Bytes) (pu : Option Bool) (c : Bool)
    (hne : hv ≠ []) :
    ∃ k, Key.init none none none (some hv) pu (some c) = Except.ok k ∧
      k.hash160MT (some true) = ((if c then none else some hv), k, []) ∧
      k.hash160MT (some false) = ((if c then some hv else none), k, []) := by
  have htr : truthyBytes (some hv) = true := by
    cases hv
    · exact absurd rfl hne
    · rfl
  refine ⟨⟨pu.getD (!c), none, none, none,
    (if c then none else some hv), (if c then some hv else none)⟩, ?_, ?_, ?_⟩
  · unfold Key.init
    rw [if_neg (by simp [countNone]), if_neg (by simp [truthyInt])]
    dsimp only
    simp [Key.validatePublicPair, htr]
  · simp [KeyState.hash160MT, KeyState._use_uncompressed]
  · simp [KeyState.hash160MT, KeyState._use_uncompressed]

/-- Witness for the C7 theorem: a hash-only key built from a compressed
hash `[1]` answers `none` for the uncompressed variant and the stored
hash for the compressed variant. -/
theorem key_hash160_hash_only_slots_witness :
    ([1] : Bytes) ≠ [] ∧
    ∃ k, Key.init none none none (some [1]) none (some true) = Except.ok k ∧
      k.hash160MT (some true) = (none, k, []) ∧
      k.hash160MT (some false) = (some [1], k, []) := by
  refine ⟨by decide, ?_⟩
  simpa using key_hash160_hash_only_slots [1] none true (by decide)

/-- C8 (amended): `public_copy` on a key with no secret exponent returns
the same instance; on a private key (which always holds its public pair)
it returns a new Key holding only the public point with the compression
preference preserved — but with both short-hash memoization slots empty:
which slot was populated is passed on only as the construction
compression flag, which has no effect on the copy's stored state. -/
theorem key_public_copy_behavior (k : KeyState) :
    (k._secret_exponent = none → k.public_copy = Except.ok k) ∧
    (∀ s p, k._secret_exponent = some s → k._public_pair = some p →
      k.public_copy =
        Except.ok ⟨k._prefer_uncompressed, none, none, some p, none, none⟩) := by
  constructor
  · intro hs
    unfold KeyState.public_copy
    rw [hs]
  · intro s p hs hp
    unfold KeyState.public_copy
    rw [hs, hp]
    dsimp only [Option.map]
    unfold Key.init
    rw [if_neg (by simp [countNone]), if_neg (by simp [truthyInt])]
    dsimp only
    simp [Key.validatePublicPair, truthyBytes]

/-- Witness for the amended C8 theorem at the concrete private key
`kPriv`. -/
theorem key_public_copy_behavior_witness :
    kPriv._secret_exponent = some 2 ∧ kPriv._public_pair = some (2, 0) ∧
      kPriv.public_copy =
        Except.ok ⟨false, none, none, some (2, 0), none, none⟩ :=
  ⟨rfl, rfl, (key_public_copy_behavior kPriv).2 2 (2, 0) rfl rfl⟩

/-- C8 counterexample: a private key whose uncompressed hash slot has
been populated by memoization yields a public copy whose hash slots are
both empty — the populated slot is not preserved. -/
theorem key_public_copy_slot_not_preserved :
    Key.init (some 2) (some toyGen) none none none none = Except.ok kPriv ∧
    (kPriv.hash160MT (some true)).2.1._hash160_uncompressed =
      some (hash160 (public_pair_to_sec (2, 0) false)) ∧
    (kPriv.hash160MT (some true)).2.1.public_copy =
      Except.ok ⟨false, none, none, some (2, 0), none, none⟩ :=
  ⟨rfl, rfl, rfl⟩

/-- C9 (amended): a Key is immutable after construction except for the
two hash160 memoization slots; `hash160` changes no other field, a slot
already set keeps its value, and a repeated call for the same variant
returns the cached value with no further state change and no serializer
invocation.  The serialized public-key encoding, by contrast, is not
cached: memoization leaves `sec` unaffected (it recomputes, returning
equal results). -/
theorem key_memoization_behavior (k : KeyState) (u u' : Option Bool) :
    ((k.hash160MT u).2.1._prefer_uncompressed = k._prefer_uncompressed ∧
     (k.hash160MT u).2.1._secret_exponent = k._secret_exponent ∧
     (k.hash160MT u).2.1._generator = k._generator ∧
     (k.hash160MT u).2.1._public_pair = k._public_pair) ∧
    (k._hash160_compressed = none ∨
      (k.hash160MT u).2.1._hash160_compressed = k._hash160_compressed) ∧
    (k._hash160_uncompressed = none ∨
      (k.hash160MT u).2.1._hash160_uncompressed = k._hash160_uncompressed) ∧
    ((k.hash160MT u).2.1.hash160MT u =
      ((k.hash160MT u).1, (k.hash160MT u).2.1, [])) ∧
    ((k.hash160MT u).2.1.secT u' = k.secT u') := by
  rcases k with ⟨pref, se, g, pp, hu, hc⟩
  rcases u with _ | b
  · rcases pp with _ | p <;> rcases hu with _ | vu <;> rcases hc with _ | vc <;>
      cases pref <;>
      simp [KeyState.hash160MT, KeyState.secT, KeyState._use_uncompressed]
  · rcases pp with _ | p <;> rcases hu with _ | vu <;> rcases hc with _ | vc <;>
      cases b <;>
      simp [KeyState.hash160MT, KeyState.secT, KeyState._use_uncompressed]

/-- C9 counterexample: the serialized public-key encoding is not
"computed at most once per instance per compression variant": computing
the compressed hash160 of `kPriv` invokes the serializer on the
compressed variant, and a subsequent `sec` call on the resulting
instance invokes the serializer on the very same variant again. -/
theorem key_sec_not_cached :
    Key.init (some 2) (some toyGen) none none none none = Except.ok kPriv ∧
    (kPriv.hash160MT (some false)).2.2 = [((2, 0), true)] ∧
    ((kPriv.hash160MT (some false)).2.1.secT (some false)).2 = [((2, 0), true)] :=
  ⟨rfl, rfl, rfl⟩

/-- C10: a hash-only Key whose construction compression flag and
uncompressed preference agree (`is_compressed = b`,
`prefer_uncompressed = b`) stores its hash in the slot the preference
does not select, so `hash160()` returns `none` and `verify` returns
`false` for every message hash and every DER-decodable signature. -/
theorem key_hash_only_mismatched_slot (hv : Bytes) (b : Bool) (g : Generator)
    (hmsg sig : Bytes) (rs : Int × Int)
    (hne : hv ≠ []) (hd : sigdecode_der sig = some rs) :
    ∃ k, Key.init none (some g) none (some hv) (some b) (some b) = Except.ok k ∧
      (k.hash160MT none).1 = none ∧
      k.verify hmsg sig none = Except.ok false := by
  have htr : truthyBytes (some hv) = true := by
    cases hv
    · exact absurd rfl hne
    · rfl
  refine ⟨⟨b, none, some g, none,
    (if b then none else some hv), (if b then some hv else none)⟩, ?_, ?_, ?_⟩
  · unfold Key.init
    rw [if_neg (by simp [countNone]), if_neg (by simp [truthyInt])]
    dsimp only
    simp [Key.validatePublicPair, htr]
  · cases b <;> simp [KeyState.hash160MT, KeyState._use_uncompressed]
  · unfold KeyState.verify
    dsimp only
    rw [hd]
    dsimp only
    cases b <;>
      (rw [List.find?_eq_none.mpr (fun x _ => by
          simp [KeyState.hash160MT, KeyState._use_uncompressed])]) <;>
      rfl

/-- Witness for the C10 theorem at hash `[7]`, flag `true`, over the toy
generator. -/
theorem key_hash_only_mismatched_slot_witness :
    ([7] : Bytes) ≠ [] ∧ sigdecode_der [48, 1, 2] = some (1, 2) ∧
    ∃ k, Key.init none (some toyGen) none (some [7]) (some true) (some true) =
        Except.ok k ∧
      (k.hash160MT none).1 = none ∧
      k.verify [0] [48, 1, 2] none = Except.ok false :=
  ⟨by decide, rfl,
    key_hash_only_mismatched_slot [7] true toyGen [0] [48, 1, 2] (1, 2)
      (by decide) rfl⟩

/-- C1: for a Key holding no public point, `verify` DER-decodes the
signature, obtains the recovery candidates from the generator, and scans
them for the first whose short hash under the compressed or the
uncompressed encoding equals the key's stored short-hash value
(`self.hash160()`); that candidate is passed to the underlying verify
primitive, and if no candidate matches the result is `false` for an
arbitrary verify primitive `f` — the primitive is never consulted. -/
theorem key_verify_hash_only_recovery (k : KeyState) (g : Generator)
    (f : Point → Int → Int × Int → Bool) (hmsg sig : Bytes) (rs : Int × Int)
    (hk : k._public_pair = none) (hd : sigdecode_der sig = some rs) :
    k.verify hmsg sig (some { g with verify := f }) =
      Except.ok
        (match (g.possible_public_pairs_for_signature (from_bytes_32 hmsg) rs).find?
            (fun candidate =>
              ((k.hash160MT none).1 == some (public_pair_to_hash160_sec candidate true)) ||
              ((k.hash160MT none).1 == some (public_pair_to_hash160_sec candidate false))) with
          | some pubkey => f pubkey (from_bytes_32 hmsg) rs
          | none => false) := by
  unfold KeyState.verify
  dsimp only
  rw [hd]
  dsimp only [KeyState.public_pair]
  rw [hk]
  dsimp only
  cases hfind : (g.possible_public_pairs_for_signature (from_bytes_32 hmsg) rs).find?
      (fun candidate =>
        ((k.hash160MT none).1 == some (public_pair_to_hash160_sec candidate true)) ||
        ((k.hash160MT none).1 == some (public_pair_to_hash160_sec candidate false))) <;>
    simp [hfind]

/-- Witness for the C1 theorem at the concrete hash-only key
`kHashOnly`, the toy generator with its own verify primitive, message
hash `[3]` and signature `[48, 1, 2]`. -/
theorem key_verify_hash_only_recovery_witness :
    kHashOnly._public_pair = none ∧ sigdecode_der [48, 1, 2] = some (1, 2) ∧
      KeyState.verify kHashOnly [3] [48, 1, 2]
          (some { toyGen with verify := toyGen.verify }) =
        Except.ok
          (match (toyGen.possible_public_pairs_for_signature (from_bytes_32 [3]) (1, 2)).find?
              (fun candidate =>
                ((kHashOnly.hash160MT none).1 == some (public_pair_to_hash160_sec candidate true)) ||
                ((kHashOnly.hash160MT none).1 == some (public_pair_to_hash160_sec candidate false))) with
            | some pubkey => toyGen.verify pubkey (from_bytes_32 [3]) (1, 2)
            | none => false) :=
  ⟨rfl, rfl,
    key_verify_hash_only_recovery kHashOnly toyGen toyGen.verify [3] [48, 1, 2]
      (1, 2) rfl rfl⟩

end Pycoin
